import Mathlib

/-
Verification development for the p2p Service event loop (src/service.rs).

The Rust service is embedded shallowly:

* `HashMap` fields become association lists (`List (Nat × _)`) with
  overwrite-on-insert semantics (`insertA`).
* Protocol handlers, the service handle, spawned tasks and streams are
  external trait objects; the embedding records every call / side effect the
  service makes on them as an `Effect` in the order the source performs them.
* `task_count` has type `usize` in the source; it is embedded as `Int` so
  that the exact moment a decrement happens while the counter is zero is
  observable as a negative value (in a Rust debug build that decrement
  panics, in a release build it wraps).
* The four suspension points (dialer poll, listener poll, and the two
  channel receives) are driven by an `Env` oracle supplying the outcome of
  each dialer / listener poll; the two mpsc channels are embedded as the
  lists `session_events` / `service_tasks` held in the service state, which
  `poll` drains exactly as the source does.
-/

namespace P2P

/-- Direction of a connection, as in `yamux::session::SessionType`:
`Client` is the dialing (outbound) side, `Server` the accepting (inbound) side. -/
inductive SessionType where
  | Client
  | Server
  deriving DecidableEq, Repr

/-- `SessionEvent` variants the service receives on `session_event_receiver`
(and sends into per-session command channels).  Streams are identified by a
numeric connection id; a public key and an address are opaque numbers;
payload bytes are a list of numbers.  The error payloads carried by
`HandshakeFail` are dropped (the source only matches on `ty`). -/
inductive SessionEvent where
  | HandshakeSuccess (conn : Nat) (public_key : Nat) (address : Nat) (ty : SessionType)
  | HandshakeFail (ty : SessionType)
  | SessionClose (id : Nat)
  | ProtocolOpen (id : Nat) (proto_id : Nat) (remote_address : Nat) (ty : SessionType)
      (remote_public_key : Option Nat) (version : String)
  | ProtocolMessage (id : Nat) (proto_id : Nat) (data : List Nat)
  | ProtocolClose (id : Nat) (proto_id : Nat)
  deriving DecidableEq, Repr

/-- `ServiceEvent` variants delivered to the `ServiceHandle`.  The `io::Error`
payloads are dropped (opaque). -/
inductive ServiceEvent where
  | DialerError (address : Nat)
  | ListenError (address : Nat)
  | SessionClose (id : Nat)
  | SessionOpen (id : Nat) (address : Nat) (ty : SessionType) (public_key : Option Nat)
  deriving DecidableEq, Repr

/-- Protocol message (`Message` in the source). -/
structure Message where
  id : Nat
  proto_id : Nat
  data : List Nat
  deriving DecidableEq, Repr

/-- `ServiceTask` variants arriving on `service_task_receiver`.  The boxed
future in `FutureTask` is opaque and therefore dropped. -/
inductive ServiceTask where
  | ProtocolMessage (ids : Option (List Nat)) (message : Message)
  | ProtocolNotify (proto_id : Nat) (token : Nat)
  | ProtocolSessionNotify (id : Nat) (proto_id : Nat) (token : Nat)
  | FutureTask
  | Disconnect (id : Nat)
  | Dial (address : Nat)
  deriving DecidableEq, Repr

/-- Everything observable the service does to the outside world: calls into
the user handle, calls into global / per-session protocol handles, try-sends
into session command channels, stream shutdowns and task spawns, recorded in
source order. -/
inductive Effect where
  | shutdown (conn : Nat)
  | openProtoStream (sid : Nat) (name : String)
  | spawnSession (sid : Nat) (conn : Nat)
  | spawnHandshakeTask (conn : Nat) (ty : SessionType)
  | spawnFuture
  | trySend (sid : Nat) (ev : SessionEvent)
  | handleEvent (ev : ServiceEvent)
  | handleError (ev : ServiceEvent)
  | globalInit (pid : Nat)
  | globalConnected (pid : Nat) (sid : Nat) (address : Nat) (ty : SessionType)
      (key : Option Nat) (version : String)
  | globalReceived (pid : Nat) (sid : Nat) (data : List Nat)
  | globalDisconnected (pid : Nat) (sid : Nat)
  | globalNotify (pid : Nat) (token : Nat)
  | sessionInit (sid : Nat) (pid : Nat)
  | sessionConnected (sid : Nat) (pid : Nat) (address : Nat) (ty : SessionType)
      (key : Option Nat) (version : String)
  | sessionReceived (sid : Nat) (pid : Nat) (data : List Nat)
  | sessionDisconnected (sid : Nat) (pid : Nat)
  | sessionNotify (sid : Nat) (pid : Nat) (token : Nat)
  deriving DecidableEq, Repr

/-- One entry of `protocol_configs`: a `ProtocolMeta` trait object reduced to
what the service inspects: its id, its name, and whether the global
(`handle()`) and per-session (`session_handle()`) factories return a handle. -/
structure ProtoMeta where
  id : Nat
  name : String
  hasHandle : Bool
  hasSessionHandle : Bool
  deriving DecidableEq, Repr

/-- Association-list lookup, embedding `HashMap::get`. -/
def lookupA {α : Type} (m : List (Nat × α)) (k : Nat) : Option α :=
  (m.find? (fun p => p.1 = k)).map Prod.snd

/-- Association-list removal, embedding `HashMap::remove`. -/
def removeA {α : Type} (m : List (Nat × α)) (k : Nat) : List (Nat × α) :=
  m.filter (fun p => p.1 ≠ k)

/-- Association-list insert with overwrite, embedding `HashMap::insert`. -/
def insertA {α : Type} (m : List (Nat × α)) (k : Nat) (v : α) : List (Nat × α) :=
  (k, v) :: removeA m k

/-- The `Service` struct.  `sessions` maps a session id to the connection it
wraps (standing for the session command sender); `remote_pubkeys` maps a
session id to the public key; `proto_handles` is the set of protocol ids with
an instantiated global handle; `proto_session_handles` maps a session id to
the inner map from protocol id to whether a per-session handle is present
(`false` embeds the stored `None` entry).  `session_events` and
`service_tasks` are the pending contents of the two bounded channels;
`ctx_listens` is the listen-address snapshot held by `ServiceContext`. -/
structure Service where
  protocol_configs : List ProtoMeta
  sessions : List (Nat × Nat)
  listens : List Nat
  dial : List Nat
  task_count : Int
  next_session : Nat
  key_pair : Bool
  remote_pubkeys : List (Nat × Nat)
  proto_handles : List Nat
  proto_session_handles : List (Nat × List (Nat × Bool))
  session_events : List SessionEvent
  service_tasks : List ServiceTask
  ctx_listens : List Nat
  deriving Repr

/-- `Service::new`. -/
def Service.new (protocol_configs : List ProtoMeta) (key_pair : Bool) (forever : Bool) :
    Service where
  protocol_configs := protocol_configs
  sessions := []
  listens := []
  dial := []
  task_count := if forever then 1 else 0
  next_session := 0
  key_pair := key_pair
  remote_pubkeys := []
  proto_handles := []
  proto_session_handles := []
  session_events := []
  service_tasks := []
  ctx_listens := []

/-- `Service::listen`, success path (`TcpListener::bind` succeeded). -/
def listen (s : Service) (address : Nat) : Service :=
  { s with listens := s.listens ++ [address] }

/-- `Service::dial`, the construction-time builder method: unconditionally
queues a connect future and increments `task_count`. -/
def dialBuilder (s : Service) (address : Nat) : Service :=
  { s with dial := s.dial ++ [address], task_count := s.task_count + 1 }

/-- `Service::get_proto_handle`: whether the descriptor with id `proto_id`
produces a per-session (`session = true`) or global (`session = false`)
handle. -/
def get_proto_handle (s : Service) (session : Bool) (proto_id : Nat) : Bool :=
  s.protocol_configs.any (fun proto =>
    proto.id = proto_id && (if session then proto.hasSessionHandle else proto.hasHandle))

/-- `Service::broadcast`: one try-send per entry of `sessions`. -/
def broadcast (s : Service) (message : Message) : Service × List Effect :=
  (s, s.sessions.map (fun p =>
    Effect.trySend p.1 (SessionEvent.ProtocolMessage p.1 message.proto_id message.data)))

/-- `Service::filter_broadcast`. -/
def filter_broadcast (s : Service) (ids : Option (List Nat)) (message : Message) :
    Service × List Effect :=
  match ids with
  | none => broadcast s message
  | some ids =>
    (s, s.sessions.filterMap (fun p =>
      if ids.contains p.1 then
        some (Effect.trySend p.1
          (SessionEvent.ProtocolMessage p.1 message.proto_id message.data))
      else none))

/-- A raw TCP stream: connection id plus peer address (`peer_addr()`). -/
structure Socket where
  conn : Nat
  peer : Nat
  deriving DecidableEq, Repr

/-- `Service::session_open`.  Note the duplicate-public-key branch: the
source shuts the new stream down but does not return, so the rest of the
function still runs with the unchanged `next_session`. -/
def session_open (s : Service) (handle : Nat) (public_key : Option Nat)
    (address : Nat) (ty : SessionType) : Service × List Effect :=
  let dedup : Service × List Effect :=
    match public_key with
    | some key =>
      if s.remote_pubkeys.any (fun p => p.2 = key) then
        (s, [Effect.shutdown handle])
      else
        let ns := s.next_session + 1
        ({ s with next_session := ns, remote_pubkeys := insertA s.remote_pubkeys ns key }, [])
    | none => ({ s with next_session := s.next_session + 1 }, [])
  let s1 := dedup.1
  let sid := s1.next_session
  let openEffs : List Effect :=
    if ty = SessionType.Client then
      s1.protocol_configs.map (fun proto => Effect.openProtoStream sid proto.name)
    else []
  let s2 := { s1 with sessions := insertA s1.sessions sid handle }
  (s2, dedup.2 ++ openEffs ++
    [Effect.spawnSession sid handle,
     Effect.handleEvent (ServiceEvent.SessionOpen sid address SessionType.Server public_key)])

/-- `Service::session_close`. -/
def session_close (s : Service) (id : Nat) : Service × List Effect :=
  let s1 := { s with remote_pubkeys := removeA s.remote_pubkeys id }
  let sendEffs : List Effect :=
    if (lookupA s1.sessions id).isSome then
      [Effect.trySend id (SessionEvent.SessionClose id)]
    else []
  let s2 := { s1 with sessions := removeA s1.sessions id }
  let inner := (lookupA s2.proto_session_handles id).getD []
  let s3 := { s2 with proto_session_handles := removeA s2.proto_session_handles id }
  let sessEffs := inner.filterMap (fun p =>
    if p.2 then some (Effect.sessionDisconnected id p.1) else none)
  let close_proto_ids := inner.map Prod.fst
  let globEffs := close_proto_ids.filterMap (fun pid =>
    if s3.proto_handles.contains pid then some (Effect.globalDisconnected pid id) else none)
  (s3, sendEffs ++ [Effect.handleEvent (ServiceEvent.SessionClose id)] ++ sessEffs ++ globEffs)

/-- `Service::protocol_open`. -/
def protocol_open (s : Service) (id : Nat) (proto_id : Nat) (address : Nat)
    (ty : SessionType) (remote_public_key : Option Nat) (version : String) :
    Service × List Effect :=
  let globalPart : Service × List Effect :=
    if s.proto_handles.contains proto_id then
      (s, [Effect.globalConnected proto_id id address ty remote_public_key version])
    else if get_proto_handle s false proto_id then
      ({ s with proto_handles := proto_id :: s.proto_handles },
       [Effect.globalInit proto_id,
        Effect.globalConnected proto_id id address ty remote_public_key version])
    else (s, [])
  let s1 := globalPart.1
  let hasSession := get_proto_handle s true proto_id
  let sessEffs : List Effect :=
    if hasSession then
      [Effect.sessionInit id proto_id,
       Effect.sessionConnected id proto_id address ty remote_public_key version]
    else []
  let inner := (lookupA s1.proto_session_handles id).getD []
  let s2 := { s1 with
    proto_session_handles := insertA s1.proto_session_handles id (insertA inner proto_id hasSession) }
  (s2, globalPart.2 ++ sessEffs)

/-- `Service::protocol_message`. -/
def protocol_message (s : Service) (id : Nat) (proto_id : Nat) (data : List Nat) :
    Service × List Effect :=
  let g : List Effect :=
    if s.proto_handles.contains proto_id then [Effect.globalReceived proto_id id data] else []
  let sess : List Effect :=
    match lookupA s.proto_session_handles id with
    | some handles =>
      match lookupA handles proto_id with
      | some true => [Effect.sessionReceived id proto_id data]
      | _ => []
    | none => []
  (s, g ++ sess)

/-- `Service::protocol_close`. -/
def protocol_close (s : Service) (id : Nat) (proto_id : Nat) : Service × List Effect :=
  let g : List Effect :=
    if s.proto_handles.contains proto_id then [Effect.globalDisconnected proto_id id] else []
  match lookupA s.proto_session_handles id with
  | some handles =>
    let sess : List Effect :=
      match lookupA handles proto_id with
      | some true => [Effect.sessionDisconnected id proto_id]
      | _ => []
    ({ s with proto_session_handles :=
        insertA s.proto_session_handles id (removeA handles proto_id) }, g ++ sess)
  | none => (s, g)

/-- `Service::handshake`.  With a key pair configured it spawns the secio
handshake task; otherwise it synchronously opens the session with no public
key and, for the `Client` (outbound) direction only, decrements
`task_count`. -/
def handshake (s : Service) (socket : Socket) (ty : SessionType) : Service × List Effect :=
  if s.key_pair then
    (s, [Effect.spawnHandshakeTask socket.conn ty])
  else
    let r := session_open s socket.conn none socket.peer ty
    (if ty = SessionType.Client then { r.1 with task_count := r.1.task_count - 1 } else r.1,
     r.2)

/-- `Service::handle_session_event`. -/
def handle_session_event (s : Service) (event : SessionEvent) : Service × List Effect :=
  match event with
  | SessionEvent.SessionClose id => session_close s id
  | SessionEvent.HandshakeSuccess conn public_key address ty =>
    let r := session_open s conn (some public_key) address ty
    (if ty = SessionType.Client then { r.1 with task_count := r.1.task_count - 1 } else r.1,
     r.2)
  | SessionEvent.HandshakeFail ty =>
    (if ty = SessionType.Client then { s with task_count := s.task_count - 1 } else s, [])
  | SessionEvent.ProtocolMessage id proto_id data => protocol_message s id proto_id data
  | SessionEvent.ProtocolOpen id proto_id remote_address ty remote_public_key version =>
    protocol_open s id proto_id remote_address ty remote_public_key version
  | SessionEvent.ProtocolClose id proto_id => protocol_close s id proto_id

/-- `Service::handle_service_task`.  Note that the `Dial` task checks for an
in-flight dial to the same address but does not touch `task_count`. -/
def handle_service_task (s : Service) (event : ServiceTask) : Service × List Effect :=
  match event with
  | ServiceTask.ProtocolMessage ids message => filter_broadcast s ids message
  | ServiceTask.Dial address =>
    if s.dial.contains address then (s, [])
    else ({ s with dial := s.dial ++ [address] }, [])
  | ServiceTask.Disconnect id => session_close s id
  | ServiceTask.FutureTask => (s, [Effect.spawnFuture])
  | ServiceTask.ProtocolNotify proto_id token =>
    (s, if s.proto_handles.contains proto_id then [Effect.globalNotify proto_id token] else [])
  | ServiceTask.ProtocolSessionNotify id proto_id token =>
    (s,
      match lookupA s.proto_session_handles id with
      | some handles =>
        match lookupA handles proto_id with
        | some true => [Effect.sessionNotify id proto_id token]
        | _ => []
      | none => [])

/-- Outcome of polling one in-flight `ConnectFuture`. -/
inductive DialRes where
  | ready (conn : Nat)
  | notReady
  | err
  deriving Repr

/-- Outcome of polling one listener `Incoming` stream; `readySome` carries
the accepted connection and its peer address. -/
inductive ListenRes where
  | readySome (conn : Nat) (peer : Nat)
  | readyNone
  | notReady
  | err
  deriving Repr

/-- Oracle supplying the outcome of each dialer / listener poll. -/
structure Env where
  dialRes : Nat → DialRes
  listenRes : Nat → ListenRes

/-- The loop body of `Service::client_poll` over the drained dial list. -/
def client_poll_list (env : Env) : List Nat → Service → Service × List Effect
  | [], s => (s, [])
  | address :: rest, s =>
    match env.dialRes address with
    | DialRes.ready conn =>
      let r1 := handshake s { conn := conn, peer := address } SessionType.Client
      let r2 := client_poll_list env rest r1.1
      (r2.1, r1.2 ++ r2.2)
    | DialRes.notReady =>
      client_poll_list env rest { s with dial := s.dial ++ [address] }
    | DialRes.err =>
      let r2 := client_poll_list env rest { s with task_count := s.task_count - 1 }
      (r2.1, Effect.handleError (ServiceEvent.DialerError address) :: r2.2)

/-- `Service::client_poll` (`self.dial.split_off(0)` then the loop). -/
def client_poll (env : Env) (s : Service) : Service × List Effect :=
  client_poll_list env s.dial { s with dial := [] }

/-- The loop body of `Service::listen_poll` over the drained listener list. -/
def listen_poll_list (env : Env) : List Nat → Service → Service × List Effect
  | [], s => (s, [])
  | address :: rest, s =>
    match env.listenRes address with
    | ListenRes.readySome conn peer =>
      let r1 := handshake s { conn := conn, peer := peer } SessionType.Server
      let r2 := listen_poll_list env rest { r1.1 with listens := r1.1.listens ++ [address] }
      (r2.1, r1.2 ++ r2.2)
    | ListenRes.readyNone => listen_poll_list env rest s
    | ListenRes.notReady =>
      listen_poll_list env rest { s with listens := s.listens ++ [address] }
    | ListenRes.err =>
      let r2 := listen_poll_list env rest { s with listens := s.listens ++ [address] }
      (r2.1, Effect.handleError (ServiceEvent.ListenError address) :: r2.2)

/-- `Service::listen_poll`, including the `update_listens` snapshot refresh. -/
def listen_poll (env : Env) (s : Service) : Service × List Effect :=
  let r := listen_poll_list env s.listens { s with listens := [] }
  ({ r.1 with ctx_listens := r.1.listens }, r.2)

/-- Draining loop over `session_event_receiver`. -/
def drain_events : List SessionEvent → Service → Service × List Effect
  | [], s => (s, [])
  | ev :: rest, s =>
    let r1 := handle_session_event s ev
    let r2 := drain_events rest r1.1
    (r2.1, r1.2 ++ r2.2)

/-- Draining loop over `service_task_receiver`. -/
def drain_tasks : List ServiceTask → Service → Service × List Effect
  | [], s => (s, [])
  | t :: rest, s =>
    let r1 := handle_service_task s t
    let r2 := drain_tasks rest r1.1
    (r2.1, r1.2 ++ r2.2)

/-- Result of one `Stream::poll` call on the service: `complete` embeds
`Ok(Async::Ready(None))`, `notReady` embeds `Ok(Async::NotReady)`. -/
inductive PollRes where
  | complete
  | notReady
  deriving DecidableEq, Repr

/-- The termination condition checked (twice) by `Service::poll`. -/
def stopped (s : Service) : Bool :=
  s.listens.isEmpty && s.task_count == 0 && s.sessions.isEmpty

/-- The final double check at the end of `Service::poll`. -/
def poll_finish (s : Service) (effs : List Effect) : PollRes × Service × List Effect :=
  if stopped s then (PollRes.complete, s, effs) else (PollRes.notReady, s, effs)

/-- `<Service as Stream>::poll`: early termination check, dialer poll,
listener poll, drain of `session_events`, drain of `service_tasks`, final
double check. -/
def poll (env : Env) (s : Service) : PollRes × Service × List Effect :=
  if stopped s then (PollRes.complete, s, [])
  else
    let r1 := client_poll env s
    let r2 := listen_poll env r1.1
    let r3 := drain_events r2.1.session_events { r2.1 with session_events := [] }
    let r4 := drain_tasks r3.1.service_tasks { r3.1 with service_tasks := [] }
    poll_finish r4.1 (r1.2 ++ r2.2 ++ r3.2 ++ r4.2)

/-- One interaction with the service through its public interface: builder
calls, external enqueues on the two channels (by sessions, handshake tasks
and user handles), and poll iterations. -/
inductive Step where
  | listenStep (address : Nat)
  | dialStep (address : Nat)
  | pushEvents (evs : List SessionEvent)
  | pushTasks (ts : List ServiceTask)
  | pollStep (env : Env)

/-- Apply one `Step`. -/
def step : Step → Service → Service × List Effect
  | Step.listenStep a, s => (listen s a, [])
  | Step.dialStep a, s => (dialBuilder s a, [])
  | Step.pushEvents evs, s => ({ s with session_events := s.session_events ++ evs }, [])
  | Step.pushTasks ts, s => ({ s with service_tasks := s.service_tasks ++ ts }, [])
  | Step.pollStep env, s => let r := poll env s; (r.2.1, r.2.2)

/-- Apply a sequence of `Step`s, collecting all effects in order. -/
def run : List Step → Service → Service × List Effect
  | [], s => (s, [])
  | op :: rest, s =>
    let r1 := step op s
    let r2 := run rest r1.1
    (r2.1, r1.2 ++ r2.2)

/-- An environment whose every dialer / listener poll yields the given fixed
outcomes. -/
def envConst (d : DialRes) (l : ListenRes) : Env where
  dialRes := fun _ => d
  listenRes := fun _ => l

/-- Trace reaching the duplicate-public-key branch of `session_open`: with
`forever = true`, two handshake successes for distinct inbound connections
(100 and 200) carrying the same public key 42 are drained in one poll. -/
def dupSteps : List Step :=
  [Step.pushEvents
      [SessionEvent.HandshakeSuccess 100 42 9 SessionType.Server,
       SessionEvent.HandshakeSuccess 200 42 9 SessionType.Server],
   Step.pollStep (envConst DialRes.notReady ListenRes.notReady)]

/-- Trace opening an outbound session through the crypto bypass: a builder
dial to address 7 whose connect future resolves to connection 50. -/
def outboundSteps : List Step :=
  [Step.dialStep 7,
   Step.pollStep (envConst (DialRes.ready 50) ListenRes.notReady)]

/-- Trace reaching a `task_count` decrement while the counter is zero: with
`forever = false`, a listener on address 5 keeps the loop alive, a `Dial 7`
service task queues a connect future without incrementing `task_count`, and
the next poll sees that connect future fail. -/
def bugSteps : List Step :=
  [Step.listenStep 5,
   Step.pushTasks [ServiceTask.Dial 7],
   Step.pollStep (envConst DialRes.notReady ListenRes.notReady),
   Step.pollStep (envConst DialRes.err ListenRes.notReady)]

/- ## Association-list lemmas -/

theorem lookupA_cons {α : Type} (k : Nat) (v : α) (m : List (Nat × α)) (j : Nat) :
    lookupA ((k, v) :: m) j = if k = j then some v else lookupA m j := by
  by_cases h : k = j <;> simp [lookupA, List.find?, h]

theorem lookupA_removeA {α : Type} (m : List (Nat × α)) (k : Nat) :
    lookupA (removeA m k) k = none := by
  induction m with
  | nil => rfl
  | cons p rest ih =>
    obtain ⟨a, b⟩ := p
    by_cases h : a = k
    · simpa [removeA, h] using ih
    · rw [removeA, List.filter_cons]
      simp only [ne_eq, h, not_false_eq_true, decide_True, if_true, lookupA_cons, if_neg h]
      simpa [removeA, ne_eq] using ih

theorem lookupA_insertA_self {α : Type} (m : List (Nat × α)) (k : Nat) (v : α) :
    lookupA (insertA m k v) k = some v := by
  simp [insertA, lookupA_cons]

theorem lookupA_eq_none_of_not_mem {α : Type} (m : List (Nat × α)) (k : Nat)
    (h : k ∉ m.map Prod.fst) : lookupA m k = none := by
  induction m with
  | nil => rfl
  | cons p rest ih =>
    simp only [List.map_cons, List.mem_cons] at h
    push_neg at h
    rw [show p = (p.1, p.2) from rfl, lookupA_cons, if_neg (fun he => h.1 he.symm)]
    exact ih h.2

/- ## Claim theorems: concrete code-bug evaluations -/

/-- C1: the claim states that when `session_open` sees a public key that some
live session already has, it shuts the new stream down and returns without
registering the connection or delivering a `SessionOpen` event.  The source
(src/service.rs:534-580) shuts the stream down but does not return: on the
`dupSteps` trace the duplicate connection 200 is shut down, yet the session
registry entry for id 1 is overwritten to point at connection 200 and a
second `SessionOpen` event for the same public key 42 is delivered to the
service handle. -/
theorem session_open_dedup_falls_through :
    Effect.shutdown 200 ∈ (run dupSteps (Service.new [] true true)).2 ∧
    lookupA (run dupSteps (Service.new [] true true)).1.sessions 1 = some 200 ∧
    (run dupSteps (Service.new [] true true)).2.count
      (Effect.handleEvent (ServiceEvent.SessionOpen 1 9 SessionType.Server (some 42))) = 2 := by
  decide

/-- C9: the claim states that a session id is never assigned to two distinct
connections.  On the `dupSteps` trace the duplicate-public-key branch leaves
`next_session` at 1 and still runs the rest of `session_open`, so a second
`Session` is constructed and spawned with session id 1 for the distinct
connection 200 (src/service.rs:544-569), and the registry entry for id 1 is
rebound from connection 100 to connection 200. -/
theorem session_id_reused_for_duplicate_key :
    Effect.spawnSession 1 100 ∈ (run dupSteps (Service.new [] true true)).2 ∧
    Effect.spawnSession 1 200 ∈ (run dupSteps (Service.new [] true true)).2 ∧
    (run dupSteps (Service.new [] true true)).1.next_session = 1 := by
  decide

/-- C2: the claim states that every `SessionOpen` event carries the actual
direction of the connection.  The source hardcodes `ty: SessionType::Server`
(src/service.rs:576): on the `outboundSteps` trace an outbound (`Client`)
dial to address 7 is opened through the crypto bypass, yet the delivered
event carries `Server`, and no event carrying `Client` is delivered. -/
theorem session_open_event_direction_hardcoded :
    Effect.handleEvent (ServiceEvent.SessionOpen 1 7 SessionType.Server none) ∈
      (run outboundSteps (Service.new [] false false)).2 ∧
    Effect.handleEvent (ServiceEvent.SessionOpen 1 7 SessionType.Client none) ∉
      (run outboundSteps (Service.new [] false false)).2 := by
  decide

/-- C10: the claim states that `task_count` is strictly positive at every
point where the service decrements it.  On the `bugSteps` trace a `Dial 7`
service task queues a connect future without incrementing `task_count`
(src/service.rs:780-785), so when that connect future fails, `client_poll`
decrements `task_count` while it is zero (src/service.rs:822): in this
embedding the `usize` counter, modelled as `Int`, ends at -1 (in a Rust
debug build the decrement panics; in a release build it wraps). -/
theorem task_count_underflows :
    (run bugSteps (Service.new [] true false)).1.task_count = -1 ∧
    Effect.handleError (ServiceEvent.DialerError 7) ∈
      (run bugSteps (Service.new [] true false)).2 := by
  decide

/- ## C4: dialing -/

/-- C4 counterexample: the claim states that both dial paths queue a connect
future iff no in-flight dial to the same address exists and increment
`task_count` exactly when they queue.  Both halves fail on the source: the
builder `Service::dial` queues a second future to the same address 7 and
increments `task_count` again (src/service.rs:372-377), and a `Dial` service
task that does queue a fresh future leaves `task_count` at 0
(src/service.rs:780-785). -/
theorem dial_claim_counterexample :
    (dialBuilder (dialBuilder (Service.new [] false false) 7) 7).dial = [7, 7] ∧
    (dialBuilder (dialBuilder (Service.new [] false false) 7) 7).task_count = 2 ∧
    (handle_service_task (Service.new [] false false) (ServiceTask.Dial 7)).1.dial = [7] ∧
    (handle_service_task (Service.new [] false false) (ServiceTask.Dial 7)).1.task_count = 0 := by
  decide

/-- C4 (amended): the construction-time `Service::dial` always queues a
connect future and increments `task_count`, with no duplicate check; a
`Dial{addr}` service task queues a connect future iff no in-flight dial to
the same address exists, and never changes `task_count` (so a duplicate
request enqueues no second future and leaves `task_count` unchanged). -/
theorem dial_paths_spec (s : Service) (address : Nat) :
    (dialBuilder s address).dial = s.dial ++ [address] ∧
    (dialBuilder s address).task_count = s.task_count + 1 ∧
    handle_service_task s (ServiceTask.Dial address) =
      (if s.dial.contains address then s else { s with dial := s.dial ++ [address] }, []) := by
  refine ⟨rfl, rfl, ?_⟩
  by_cases h : address ∈ s.dial <;> simp [handle_service_task, h]

/- ## C3: the termination condition of poll -/

theorem poll_finish_complete_iff (s : Service) (effs : List Effect) :
    (poll_finish s effs).1 = PollRes.complete ↔ stopped (poll_finish s effs).2.1 = true := by
  cases h : stopped s <;> simp [poll_finish, h]

/-- C3: `Service::poll` returns complete (`Ready(None)`) iff, at the state it
returns with, the listener list is empty, `task_count` is 0 and the session
registry is empty; with `forever = false` and no listeners and no dials the
very first poll returns complete immediately, leaving the state (including
both pending channels) untouched and performing no effect; with
`forever = true` and no listeners, sessions or dials the first poll returns
not-ready, because `task_count` is 1. -/
theorem poll_complete_iff :
    (∀ (env : Env) (s : Service),
      (poll env s).1 = PollRes.complete ↔ stopped (poll env s).2.1 = true) ∧
    (∀ (protos : List ProtoMeta) (kp : Bool) (evs : List SessionEvent)
        (ts : List ServiceTask) (env : Env),
      poll env { Service.new protos kp false with session_events := evs, service_tasks := ts } =
        (PollRes.complete,
         { Service.new protos kp false with session_events := evs, service_tasks := ts }, [])) ∧
    (∀ (protos : List ProtoMeta) (kp : Bool) (env : Env),
      (poll env (Service.new protos kp true)).1 = PollRes.notReady) := by
  refine ⟨?_, ?_, ?_⟩
  · intro env s
    by_cases h : stopped s = true
    · simp [poll, h]
    · have h' : stopped s = false := by simpa using h
      simp only [poll, h', Bool.false_eq_true, if_false]
      exact poll_finish_complete_iff _ _
  · intro protos kp evs ts env
    rfl
  · intro protos kp env
    rfl

/- ## C5: session close -/

/-- C5: after `session_close(sid)` no entry for `sid` remains in the session
registry, the public-key map or the per-session handler map; a per-session
handle receives `disconnected(sid)` exactly when it was present (stored as
`Some`) under `sid`; and a global handle receives `disconnected(sid)` exactly
when its protocol had a per-session entry under `sid` (present or null) and
the global handle exists — in particular a global handler is never told about
a session in which its protocol never opened. -/
theorem session_close_spec (s : Service) (id : Nat) :
    lookupA (session_close s id).1.sessions id = none ∧
    lookupA (session_close s id).1.remote_pubkeys id = none ∧
    lookupA (session_close s id).1.proto_session_handles id = none ∧
    (∀ pid : Nat, Effect.sessionDisconnected id pid ∈ (session_close s id).2 ↔
      ∃ inner, lookupA s.proto_session_handles id = some inner ∧ (pid, true) ∈ inner) ∧
    (∀ pid : Nat, Effect.globalDisconnected pid id ∈ (session_close s id).2 ↔
      ∃ inner, lookupA s.proto_session_handles id = some inner ∧
        pid ∈ inner.map Prod.fst ∧ pid ∈ s.proto_handles) := by
  refine ⟨?_, ?_, ?_, ?_, ?_⟩
  · simp [session_close, lookupA_removeA]
  · simp [session_close, lookupA_removeA]
  · simp [session_close, lookupA_removeA]
  · intro pid
    cases hin : lookupA s.proto_session_handles id with
    | none =>
      by_cases hs : (lookupA (removeA s.sessions id) id).isSome <;>
        simp [session_close, hin, hs]
    | some inner =>
      by_cases hs : (lookupA (removeA s.sessions id) id).isSome <;>
        simp [session_close, hin, hs, List.mem_filterMap]
  · intro pid
    cases hin : lookupA s.proto_session_handles id with
    | none =>
      by_cases hs : (lookupA (removeA s.sessions id) id).isSome <;>
        simp [session_close, hin, hs]
    | some inner =>
      by_cases hs : (lookupA (removeA s.sessions id) id).isSome <;>
        simp [session_close, hin, hs, List.mem_filterMap, List.mem_map]

/- ## C7: the crypto bypass in handshake -/

theorem session_open_task_count (s : Service) (c : Nat) (k : Option Nat)
    (a : Nat) (ty : SessionType) :
    (session_open s c k a ty).1.task_count = s.task_count := by
  unfold session_open
  cases k with
  | none => rfl
  | some key => by_cases h : s.remote_pubkeys.any (fun p => p.2 = key) <;> simp [h]

/-- C7: when no key pair is configured, `Service::handshake` synchronously
performs `session_open` with `public_key = None` (same effects, and the
resulting state is that of `session_open` up to the counter), and decrements
`task_count` immediately iff the direction is `Client` (outbound); an
inbound bypass leaves `task_count` unchanged. -/
theorem handshake_bypass_spec (s : Service) (socket : Socket) (ty : SessionType)
    (h : s.key_pair = false) :
    (handshake s socket ty).2 = (session_open s socket.conn none socket.peer ty).2 ∧
    (handshake s socket ty).1 =
      (if ty = SessionType.Client then
        { (session_open s socket.conn none socket.peer ty).1 with
            task_count := (session_open s socket.conn none socket.peer ty).1.task_count - 1 }
      else (session_open s socket.conn none socket.peer ty).1) ∧
    (handshake s socket ty).1.task_count =
      s.task_count - (if ty = SessionType.Client then 1 else 0) := by
  refine ⟨?_, ?_, ?_⟩
  · simp [handshake, h]
  · cases ty <;> simp [handshake, h]
  · cases ty <;> simp [handshake, h, session_open_task_count]

/-- Witness for C7 at a concrete input: the service built without a key
pair, an outbound socket, direction `Client`. -/
theorem handshake_bypass_spec_witness :
    (Service.new [] false false).key_pair = false ∧
    ((handshake (Service.new [] false false) { conn := 3, peer := 4 } SessionType.Client).2 =
        (session_open (Service.new [] false false) 3 none 4 SessionType.Client).2 ∧
      (handshake (Service.new [] false false) { conn := 3, peer := 4 } SessionType.Client).1 =
        (if SessionType.Client = SessionType.Client then
          { (session_open (Service.new [] false false) 3 none 4 SessionType.Client).1 with
              task_count :=
                (session_open (Service.new [] false false) 3 none 4
                    SessionType.Client).1.task_count - 1 }
        else (session_open (Service.new [] false false) 3 none 4 SessionType.Client).1) ∧
      (handshake (Service.new [] false false) { conn := 3, peer := 4 }
            SessionType.Client).1.task_count =
        (Service.new [] false false).task_count -
          (if SessionType.Client = SessionType.Client then 1 else 0)) :=
  ⟨rfl, handshake_bypass_spec (Service.new [] false false)
    { conn := 3, peer := 4 } SessionType.Client rfl⟩

/- ## C8: broadcast and filtered broadcast -/

theorem count_sends_filter (proto_id : Nat) (data : List Nat) (sid : Nat) (cond : Nat → Bool)
    (l : List (Nat × Nat)) (h : (l.map Prod.fst).Nodup) :
    List.count (Effect.trySend sid (SessionEvent.ProtocolMessage sid proto_id data))
      (l.filterMap (fun p =>
        if cond p.1 then
          some (Effect.trySend p.1 (SessionEvent.ProtocolMessage p.1 proto_id data))
        else none)) =
      if (lookupA l sid).isSome && cond sid then 1 else 0 := by
  induction l with
  | nil => simp [lookupA]
  | cons p rest ih =>
    obtain ⟨k, c⟩ := p
    simp only [List.map_cons, List.nodup_cons] at h
    obtain ⟨hk, hrest⟩ := h
    rw [List.filterMap_cons]
    by_cases hc : cond k
    · by_cases hks : k = sid
      · subst hks
        have hnone : lookupA rest k = none := lookupA_eq_none_of_not_mem rest k hk
        simp [hc, List.count_cons, ih hrest, hnone, lookupA_cons]
      · simp [hc, List.count_cons, ih hrest, lookupA_cons, hks, Ne.symm hks]
    · by_cases hks : k = sid
      · subst hks
        simp [hc, ih hrest, lookupA_cons]
      · simp [hc, ih hrest, lookupA_cons, hks]

theorem count_sends_all (proto_id : Nat) (data : List Nat) (sid : Nat)
    (l : List (Nat × Nat)) (h : (l.map Prod.fst).Nodup) :
    List.count (Effect.trySend sid (SessionEvent.ProtocolMessage sid proto_id data))
      (l.map (fun p => Effect.trySend p.1 (SessionEvent.ProtocolMessage p.1 proto_id data))) =
      if (lookupA l sid).isSome then 1 else 0 := by
  induction l with
  | nil => simp [lookupA]
  | cons p rest ih =>
    obtain ⟨k, c⟩ := p
    simp only [List.map_cons, List.nodup_cons] at h
    obtain ⟨hk, hrest⟩ := h
    by_cases hks : k = sid
    · subst hks
      have hnone : lookupA rest k = none := lookupA_eq_none_of_not_mem rest k hk
      simp [List.count_cons, ih hrest, hnone, lookupA_cons]
    · simp [List.count_cons, ih hrest, lookupA_cons, hks, Ne.symm hks]

/-- C8: provided the session registry has no duplicate session ids, a
`ProtocolMessage` service task with `ids = None` performs exactly one
try-send of the message to the command channel of each live session (and
none to any other id); with `ids = Some S` it performs exactly one try-send
to each live session whose id is in `S` — at most one per session even if
`S` contains duplicates, ids in `S` with no live session getting none — and
every effect it performs is such a try-send. -/
theorem filter_broadcast_spec (s : Service) (ids : Option (List Nat)) (m : Message) (sid : Nat)
    (h : (s.sessions.map Prod.fst).Nodup) :
    List.count (Effect.trySend sid (SessionEvent.ProtocolMessage sid m.proto_id m.data))
        (filter_broadcast s ids m).2 =
      (if (lookupA s.sessions sid).isSome &&
          (match ids with | none => true | some l => l.contains sid) then 1 else 0) ∧
    ∀ e ∈ (filter_broadcast s ids m).2, ∃ j,
      e = Effect.trySend j (SessionEvent.ProtocolMessage j m.proto_id m.data) := by
  constructor
  · cases ids with
    | none =>
      simpa [filter_broadcast, broadcast] using
        count_sends_all m.proto_id m.data sid s.sessions h
    | some S =>
      simpa [filter_broadcast] using
        count_sends_filter m.proto_id m.data sid (fun k => S.contains k) s.sessions h
  · intro e he
    cases ids with
    | none =>
      simp [filter_broadcast, broadcast] at he
      obtain ⟨a, b, hab, rfl⟩ := he
      exact ⟨a, rfl⟩
    | some S =>
      simp [filter_broadcast] at he
      obtain ⟨a, b, hab, hcond, rfl⟩ := he
      exact ⟨a, rfl⟩

/-- Witness for C8 at a concrete input: three live sessions, a target set
with a duplicate entry and one dead id; session 1 receives exactly one
try-send. -/
theorem filter_broadcast_spec_witness :
    List.count (Effect.trySend 1 (SessionEvent.ProtocolMessage 1 4 [8]))
      (filter_broadcast
        { Service.new [] false false with sessions := [(1, 10), (2, 20), (3, 30)] }
        (some [1, 3, 3, 99]) { id := 0, proto_id := 4, data := [8] }).2 = 1 := by
  have h := (filter_broadcast_spec
    { Service.new [] false false with sessions := [(1, 10), (2, 20), (3, 30)] }
    (some [1, 3, 3, 99]) { id := 0, proto_id := 4, data := [8] } 1 (by decide)).1
  rw [h]
  decide

/- ## C6: lazy global handles, init at most once, per-session entry always -/

/-- Accounting invariant tying emitted `globalInit pid` effects to the
transition of `pid` into `proto_handles`: an execution fragment may emit
`globalInit pid` at most when `pid` is not yet installed, and afterwards
`pid` stays installed. -/
def GInv (pid : Nat) (s s' : Service) (effs : List Effect) : Prop :=
  (pid ∈ s.proto_handles → pid ∈ s'.proto_handles) ∧
  effs.count (Effect.globalInit pid) + (if pid ∈ s.proto_handles then 1 else 0) ≤
    (if pid ∈ s'.proto_handles then 1 else 0)

theorem ginv_refl (pid : Nat) (s : Service) : GInv pid s s [] := by
  refine ⟨id, ?_⟩
  simp

theorem ginv_trans {pid : Nat} {s1 s2 s3 : Service} {e1 e2 : List Effect}
    (h1 : GInv pid s1 s2 e1) (h2 : GInv pid s2 s3 e2) : GInv pid s1 s3 (e1 ++ e2) := by
  obtain ⟨m1, c1⟩ := h1
  obtain ⟨m2, c2⟩ := h2
  refine ⟨fun h => m2 (m1 h), ?_⟩
  rw [List.count_append]
  omega

theorem ginv_untouched {pid : Nat} {s s' : Service} {effs : List Effect}
    (h : s'.proto_handles = s.proto_handles)
    (h2 : Effect.globalInit pid ∉ effs) : GInv pid s s' effs := by
  refine ⟨by simp [h], ?_⟩
  rw [List.count_eq_zero.mpr h2, h]
  simp

theorem ginv_retarget {pid : Nat} {s s' s'' : Service} {effs : List Effect}
    (h : GInv pid s s' effs) (he : s''.proto_handles = s'.proto_handles) :
    GInv pid s s'' effs := by
  obtain ⟨m, c⟩ := h
  exact ⟨fun hh => he ▸ m hh, by rw [he]; exact c⟩

theorem session_open_no_init (pid : Nat) (s : Service) (c : Nat) (k : Option Nat)
    (a : Nat) (ty : SessionType) :
    Effect.globalInit pid ∉ (session_open s c k a ty).2 := by
  unfold session_open
  cases k with
  | none => cases ty <;> simp
  | some key =>
    by_cases h : s.remote_pubkeys.any (fun p => p.2 = key) <;> cases ty <;> simp [h]

theorem session_open_proto_handles (s : Service) (c : Nat) (k : Option Nat)
    (a : Nat) (ty : SessionType) :
    (session_open s c k a ty).1.proto_handles = s.proto_handles := by
  unfold session_open
  cases k with
  | none => rfl
  | some key =>
    by_cases h : s.remote_pubkeys.any (fun p => p.2 = key) <;> simp [h]

theorem ginv_session_open (pid : Nat) (s : Service) (c : Nat) (k : Option Nat)
    (a : Nat) (ty : SessionType) :
    GInv pid s (session_open s c k a ty).1 (session_open s c k a ty).2 :=
  ginv_untouched (session_open_proto_handles s c k a ty) (session_open_no_init pid s c k a ty)

theorem ginv_handshake (pid : Nat) (s : Service) (socket : Socket) (ty : SessionType) :
    GInv pid s (handshake s socket ty).1 (handshake s socket ty).2 := by
  unfold handshake
  by_cases h : s.key_pair
  · simp only [h, if_true]
    exact ginv_untouched rfl (by simp)
  · simp only [h, Bool.false_eq_true, if_false]
    refine ginv_retarget (ginv_session_open pid s socket.conn none socket.peer ty) ?_
    by_cases hty : ty = SessionType.Client <;> simp [hty]

theorem ginv_session_close (pid : Nat) (s : Service) (id : Nat) :
    GInv pid s (session_close s id).1 (session_close s id).2 := by
  refine ginv_untouched rfl ?_
  intro hmem
  unfold session_close at hmem
  simp at hmem

theorem ginv_protocol_open (pid : Nat) (s : Service) (id proto_id address : Nat)
    (ty : SessionType) (key : Option Nat) (version : String) :
    GInv pid s (protocol_open s id proto_id address ty key version).1
      (protocol_open s id proto_id address ty key version).2 := by
  unfold protocol_open
  by_cases h1 : s.proto_handles.contains proto_id
  · simp only [h1, if_true]
    refine ginv_untouched rfl ?_
    by_cases h2 : get_proto_handle s true proto_id <;> simp [h2]
  · by_cases h2 : get_proto_handle s false proto_id
    · simp only [h1, h2, Bool.false_eq_true, if_false, if_true]
      constructor
      · intro hmem
        simp [List.mem_cons, hmem]
      · by_cases h3 : get_proto_handle s true proto_id <;>
        · simp only [h3, Bool.false_eq_true, if_true, if_false]
          by_cases h4 : pid = proto_id
          · subst h4
            have hnm : pid ∉ s.proto_handles := by simpa using h1
            simp [List.count_cons, hnm]
          · have hne : pid ∈ proto_id :: s.proto_handles ↔ pid ∈ s.proto_handles := by
              simp [List.mem_cons, h4]
            simp [List.count_cons, h4, hne, Ne.symm h4]
    · simp only [h1, h2, Bool.false_eq_true, if_false]
      refine ginv_untouched rfl ?_
      by_cases h3 : get_proto_handle s true proto_id <;> simp [h3]

theorem ginv_protocol_message (pid : Nat) (s : Service) (id proto_id : Nat) (data : List Nat) :
    GInv pid s (protocol_message s id proto_id data).1
      (protocol_message s id proto_id data).2 := by
  refine ginv_untouched ?_ ?_
  · unfold protocol_message
    rfl
  · intro hmem
    unfold protocol_message at hmem
    simp only [List.mem_append] at hmem
    rcases hmem with h | h
    · by_cases hg : s.proto_handles.contains proto_id <;> simp [hg] at h
    · split at h
      · split at h <;> simp at h
      · simp at h

theorem ginv_protocol_close (pid : Nat) (s : Service) (id proto_id : Nat) :
    GInv pid s (protocol_close s id proto_id).1 (protocol_close s id proto_id).2 := by
  unfold protocol_close
  rcases hl : lookupA s.proto_session_handles id with _ | handles
  · simp only [hl]
    refine ginv_untouched rfl ?_
    by_cases hg : s.proto_handles.contains proto_id <;> simp [hg]
  · simp only [hl]
    refine ginv_untouched rfl ?_
    intro hmem
    simp only [List.mem_append] at hmem
    rcases hmem with h | h
    · by_cases hg : s.proto_handles.contains proto_id <;> simp [hg] at h
    · split at h <;> simp at h

theorem ginv_filter_broadcast (pid : Nat) (s : Service) (ids : Option (List Nat))
    (m : Message) :
    GInv pid s (filter_broadcast s ids m).1 (filter_broadcast s ids m).2 := by
  refine ginv_untouched ?_ ?_ <;> cases ids <;> simp [filter_broadcast, broadcast]

theorem ginv_handle_session_event (pid : Nat) (s : Service) (ev : SessionEvent) :
    GInv pid s (handle_session_event s ev).1 (handle_session_event s ev).2 := by
  cases ev with
  | SessionClose id => exact ginv_session_close pid s id
  | HandshakeSuccess conn key address ty =>
    refine ginv_retarget (ginv_session_open pid s conn (some key) address ty) ?_
    unfold handle_session_event
    by_cases hty : ty = SessionType.Client <;> simp [hty]
  | HandshakeFail ty =>
    refine ginv_untouched ?_ (by cases ty <;> simp [handle_session_event])
    unfold handle_session_event
    by_cases hty : ty = SessionType.Client <;> simp [hty]
  | ProtocolMessage id proto_id data => exact ginv_protocol_message pid s id proto_id data
  | ProtocolOpen id proto_id address ty key version =>
    exact ginv_protocol_open pid s id proto_id address ty key version
  | ProtocolClose id proto_id => exact ginv_protocol_close pid s id proto_id

theorem ginv_handle_service_task (pid : Nat) (s : Service) (t : ServiceTask) :
    GInv pid s (handle_service_task s t).1 (handle_service_task s t).2 := by
  cases t with
  | ProtocolMessage ids m => exact ginv_filter_broadcast pid s ids m
  | Dial address =>
    refine ginv_untouched ?_ ?_ <;>
      by_cases h : address ∈ s.dial <;> simp [handle_service_task, h]
  | Disconnect id => exact ginv_session_close pid s id
  | FutureTask => exact ginv_untouched rfl (by simp [handle_service_task])
  | ProtocolNotify proto_id token =>
    refine ginv_untouched rfl ?_
    by_cases h : s.proto_handles.contains proto_id <;> simp [handle_service_task, h]
  | ProtocolSessionNotify id proto_id token =>
    refine ginv_untouched rfl ?_
    intro hmem
    simp only [handle_service_task] at hmem
    split at hmem
    · split at hmem <;> simp at hmem
    · simp at hmem

theorem ginv_client_poll_list (pid : Nat) (env : Env) (l : List Nat) (s : Service) :
    GInv pid s (client_poll_list env l s).1 (client_poll_list env l s).2 := by
  induction l generalizing s with
  | nil => exact ginv_refl pid s
  | cons address rest ih =>
    unfold client_poll_list
    cases env.dialRes address with
    | ready conn =>
      exact ginv_trans (ginv_handshake pid s { conn := conn, peer := address }
        SessionType.Client) (ih _)
    | notReady =>
      have h0 : GInv pid s { s with dial := s.dial ++ [address] } [] :=
        ginv_untouched rfl (by simp)
      simpa using ginv_trans h0 (ih _)
    | err =>
      have h0 : GInv pid s { s with task_count := s.task_count - 1 }
          [Effect.handleError (ServiceEvent.DialerError address)] :=
        ginv_untouched rfl (by simp)
      simpa using ginv_trans h0 (ih _)

theorem ginv_client_poll (pid : Nat) (env : Env) (s : Service) :
    GInv pid s (client_poll env s).1 (client_poll env s).2 := by
  unfold client_poll
  have h0 : GInv pid s { s with dial := ([] : List Nat) } [] := ginv_untouched rfl (by simp)
  simpa using ginv_trans h0 (ginv_client_poll_list pid env s.dial _)

theorem ginv_listen_poll_list (pid : Nat) (env : Env) (l : List Nat) (s : Service) :
    GInv pid s (listen_poll_list env l s).1 (listen_poll_list env l s).2 := by
  induction l generalizing s with
  | nil => exact ginv_refl pid s
  | cons address rest ih =>
    unfold listen_poll_list
    cases env.listenRes address with
    | readySome conn peer =>
      have h1 := ginv_handshake pid s { conn := conn, peer := peer } SessionType.Server
      have h2 : GInv pid (handshake s { conn := conn, peer := peer } SessionType.Server).1
          { (handshake s { conn := conn, peer := peer } SessionType.Server).1 with
              listens :=
                (handshake s { conn := conn, peer := peer } SessionType.Server).1.listens ++
                  [address] } [] :=
        ginv_untouched rfl (by simp)
      simpa using ginv_trans (ginv_trans h1 h2) (ih _)
    | readyNone => exact ih s
    | notReady =>
      have h0 : GInv pid s { s with listens := s.listens ++ [address] } [] :=
        ginv_untouched rfl (by simp)
      simpa using ginv_trans h0 (ih _)
    | err =>
      have h0 : GInv pid s { s with listens := s.listens ++ [address] }
          [Effect.handleError (ServiceEvent.ListenError address)] :=
        ginv_untouched rfl (by simp)
      simpa using ginv_trans h0 (ih _)

theorem ginv_listen_poll (pid : Nat) (env : Env) (s : Service) :
    GInv pid s (listen_poll env s).1 (listen_poll env s).2 := by
  unfold listen_poll
  have h0 : GInv pid s { s with listens := ([] : List Nat) } [] := ginv_untouched rfl (by simp)
  exact ginv_retarget (by simpa using ginv_trans h0 (ginv_listen_poll_list pid env s.listens _))
    rfl

theorem ginv_drain_events (pid : Nat) (l : List SessionEvent) (s : Service) :
    GInv pid s (drain_events l s).1 (drain_events l s).2 := by
  induction l generalizing s with
  | nil => exact ginv_refl pid s
  | cons ev rest ih =>
    exact ginv_trans (ginv_handle_session_event pid s ev) (ih _)

theorem ginv_drain_tasks (pid : Nat) (l : List ServiceTask) (s : Service) :
    GInv pid s (drain_tasks l s).1 (drain_tasks l s).2 := by
  induction l generalizing s with
  | nil => exact ginv_refl pid s
  | cons t rest ih =>
    exact ginv_trans (ginv_handle_service_task pid s t) (ih _)

theorem ginv_poll (pid : Nat) (env : Env) (s : Service) :
    GInv pid s (poll env s).2.1 (poll env s).2.2 := by
  unfold poll
  by_cases h : stopped s
  · simp only [h, if_true]
    exact ginv_refl pid s
  · simp only [h, Bool.false_eq_true, if_false]
    have h1 := ginv_client_poll pid env s
    have h2 := ginv_listen_poll pid env (client_poll env s).1
    have h3a : GInv pid (listen_poll env (client_poll env s).1).1
        { (listen_poll env (client_poll env s).1).1 with
            session_events := ([] : List SessionEvent) } [] := ginv_untouched rfl (by simp)
    have h3 := ginv_drain_events pid (listen_poll env (client_poll env s).1).1.session_events
      { (listen_poll env (client_poll env s).1).1 with session_events := [] }
    have h4a : GInv pid (drain_events
        (listen_poll env (client_poll env s).1).1.session_events
        { (listen_poll env (client_poll env s).1).1 with session_events := [] }).1
        { (drain_events (listen_poll env (client_poll env s).1).1.session_events
            { (listen_poll env (client_poll env s).1).1 with session_events := [] }).1 with
          service_tasks := ([] : List ServiceTask) } [] := ginv_untouched rfl (by simp)
    have h4 := ginv_drain_tasks pid
      (drain_events (listen_poll env (client_poll env s).1).1.session_events
        { (listen_poll env (client_poll env s).1).1 with session_events := [] }).1.service_tasks
      { (drain_events (listen_poll env (client_poll env s).1).1.session_events
          { (listen_poll env (client_poll env s).1).1 with session_events := [] }).1 with
        service_tasks := [] }
    have hall := ginv_trans (ginv_trans (ginv_trans (ginv_trans (ginv_trans h1 h2) h3a) h3) h4a) h4
    unfold poll_finish
    split <;> simpa using hall

theorem ginv_step (pid : Nat) (op : Step) (s : Service) :
    GInv pid s (step op s).1 (step op s).2 := by
  cases op with
  | listenStep a => exact ginv_untouched rfl (by simp [step])
  | dialStep a => exact ginv_untouched rfl (by simp [step])
  | pushEvents evs => exact ginv_untouched rfl (by simp [step])
  | pushTasks ts => exact ginv_untouched rfl (by simp [step])
  | pollStep env => exact ginv_poll pid env s

theorem ginv_run (pid : Nat) (steps : List Step) (s : Service) :
    GInv pid s (run steps s).1 (run steps s).2 := by
  induction steps generalizing s with
  | nil => exact ginv_refl pid s
  | cons op rest ih =>
    exact ginv_trans (ginv_step pid op s) (ih _)

theorem run_global_init_at_most_once (protos : List ProtoMeta) (kp forever : Bool)
    (steps : List Step) (pid : Nat) :
    (run steps (Service.new protos kp forever)).2.count (Effect.globalInit pid) ≤ 1 := by
  have h := (ginv_run pid steps (Service.new protos kp forever)).2
  have h0 : pid ∉ (Service.new protos kp forever).proto_handles := by simp [Service.new]
  rw [if_neg h0] at h
  by_cases h1 : pid ∈ (run steps (Service.new protos kp forever)).1.proto_handles
  · rw [if_pos h1] at h
    omega
  · rw [if_neg h1] at h
    omega



theorem protocol_open_psh
    (s : Service) (id proto_id address : Nat) (ty : SessionType) (key : Option Nat)
    (version : String) :
    (protocol_open s id proto_id address ty key version).1.proto_session_handles =
      insertA s.proto_session_handles id
        (insertA ((lookupA s.proto_session_handles id).getD []) proto_id
          (get_proto_handle s true proto_id)) := by
  unfold protocol_open
  by_cases h1 : proto_id ∈ s.proto_handles
  · simp [h1]
  · by_cases h2 : get_proto_handle s false proto_id <;> simp [h1, h2]

theorem protocol_open_spec :
    (∀ (s : Service) (id proto_id address : Nat) (ty : SessionType) (key : Option Nat)
        (version : String),
      (proto_id ∈ s.proto_handles →
        (protocol_open s id proto_id address ty key version).2 =
          Effect.globalConnected proto_id id address ty key version ::
            (if get_proto_handle s true proto_id then
              [Effect.sessionInit id proto_id,
               Effect.sessionConnected id proto_id address ty key version]
            else []) ∧
        (protocol_open s id proto_id address ty key version).1.proto_handles =
          s.proto_handles) ∧
      (proto_id ∉ s.proto_handles → get_proto_handle s false proto_id = true →
        (protocol_open s id proto_id address ty key version).2 =
          Effect.globalInit proto_id ::
            Effect.globalConnected proto_id id address ty key version ::
            (if get_proto_handle s true proto_id then
              [Effect.sessionInit id proto_id,
               Effect.sessionConnected id proto_id address ty key version]
            else []) ∧
        (protocol_open s id proto_id address ty key version).1.proto_handles =
          proto_id :: s.proto_handles) ∧
      (∃ inner,
        lookupA (protocol_open s id proto_id address ty key version).1.proto_session_handles
            id = some inner ∧
        lookupA inner proto_id = some (get_proto_handle s true proto_id))) ∧
    (∀ (protos : List ProtoMeta) (kp forever : Bool) (steps : List Step) (pid : Nat),
      (run steps (Service.new protos kp forever)).2.count (Effect.globalInit pid) ≤ 1) := by
  refine ⟨?_, fun protos kp forever steps pid =>
    run_global_init_at_most_once protos kp forever steps pid⟩
  intro s id proto_id address ty key version
  refine ⟨?_, ?_, ?_⟩
  · intro hmem
    constructor <;> simp [protocol_open, hmem]
  · intro hnm hgf
    constructor <;> simp [protocol_open, hnm, hgf]
  · refine ⟨insertA ((lookupA s.proto_session_handles id).getD []) proto_id
        (get_proto_handle s true proto_id), ?_, lookupA_insertA_self _ _ _⟩
    rw [protocol_open_psh]
    exact lookupA_insertA_self _ _ _

theorem protocol_open_spec_witness :
    ((1 : Nat) ∉ (Service.new [⟨1, "p", true, true⟩] false false).proto_handles) ∧
    get_proto_handle (Service.new [⟨1, "p", true, true⟩] false false) false 1 = true ∧
    ((protocol_open (Service.new [⟨1, "p", true, true⟩] false false) 5 1 9
        SessionType.Server none "v").2 =
      Effect.globalInit 1 ::
        Effect.globalConnected 1 5 9 SessionType.Server none "v" ::
        (if get_proto_handle (Service.new [⟨1, "p", true, true⟩] false false) true 1 then
          [Effect.sessionInit 5 1, Effect.sessionConnected 5 1 9 SessionType.Server none "v"]
        else []) ∧
      (protocol_open (Service.new [⟨1, "p", true, true⟩] false false) 5 1 9
          SessionType.Server none "v").1.proto_handles =
        1 :: (Service.new [⟨1, "p", true, true⟩] false false).proto_handles) :=
  ⟨by decide, by decide,
    (protocol_open_spec.1 (Service.new [⟨1, "p", true, true⟩] false false) 5 1 9
      SessionType.Server none "v").2.1 (by decide) (by decide)⟩

end P2P
